import Mathlib

/-!
Shallow embedding of `obj-to-json.py`, a converter from a line-oriented
3D mesh description (OBJ subset: `v` vertex lines and `f` triangular face
lines) to a flat document of vertex coordinates and zero-based indices.

Python strings are modelled as `List Char` (`PyStr`); the per-line
processing of `obj_to_dict` is an explicit fold in the `Except` monad;
Python's `float` values are modelled symbolically (`PyFloat`): the exact
mathematical value of the accepted literal as a rational, plus the
non-finite values `inf`, `-inf` and `nan`.  (Rounding a literal to the
nearest IEEE double is abstracted away: no claim compares values where
rounding matters.)
-/

/-- A Python string, as its sequence of characters. -/
abbrev PyStr := List Char

/-- `str.lstrip()`: drop leading whitespace. -/
def lstrip (l : PyStr) : PyStr := l.dropWhile Char.isWhitespace

/-- `str.strip()`: drop leading and trailing whitespace.
(`Char.isWhitespace` covers the space, tab, CR and LF characters that
appear in practice; Python's definition adds a few rarer control and
Unicode space characters.) -/
def stripChars (l : PyStr) : PyStr :=
  ((lstrip l).reverse.dropWhile Char.isWhitespace).reverse

/-- Worker for `pySplitWs`: `acc` holds the current token, reversed. -/
def splitWsAux : List Char → List Char → List (List Char)
  | [], acc => if acc = [] then [] else [acc.reverse]
  | c :: cs, acc =>
    if c.isWhitespace then
      if acc = [] then splitWsAux cs [] else acc.reverse :: splitWsAux cs []
    else splitWsAux cs (c :: acc)

/-- `str.split()` with no separator: split on runs of whitespace,
discarding empty tokens. -/
def pySplitWs (l : PyStr) : List PyStr := splitWsAux l []

/-- `line.strip().split('#', 1)[0].split()`: strip the line, cut
everything from the first `#` onward, split into whitespace-separated
tokens. -/
def tokenize (line : PyStr) : List PyStr :=
  pySplitWs ((stripChars line).takeWhile (· ≠ '#'))

/-- Value of a digit string, most significant first (`int(ds)` on an
all-digit string). -/
def digitsToNat (ds : List Char) : ℕ :=
  ds.foldl (fun a c => 10 * a + (c.toNat - 48)) 0

/-- `int(s)` of Python on a base-10 literal: optional surrounding
whitespace, optional sign, then at least one decimal digit.
(Underscore digit grouping, accepted by Python since 3.6, is not
modelled: no input of interest contains it.) -/
def pyInt? (s : PyStr) : Option ℤ :=
  let t := stripChars s
  let (neg, ds) :=
    match t with
    | '+' :: r => (false, r)
    | '-' :: r => (true, r)
    | r => (false, r)
  if ds ≠ [] ∧ ds.all Char.isDigit then
    some (if neg then -(digitsToNat ds : ℤ) else (digitsToNat ds : ℤ))
  else none

/-- The exponent part of a float literal, after the `e`/`E`:
optional sign then at least one digit. -/
def pyExp? (r : List Char) : Option ℤ :=
  let (eneg, ds) :=
    match r with
    | '+' :: r => (false, r)
    | '-' :: r => (true, r)
    | r => (false, r)
  if ds ≠ [] ∧ ds.all Char.isDigit then
    some (if eneg then -(digitsToNat ds : ℤ) else (digitsToNat ds : ℤ))
  else none

/-- The numeric (finite) body of a Python float literal, sign already
removed: `digits [. digits] [(e|E) exp]` with at least one digit in the
integer or fractional part.  Returns the exact rational value. -/
def pyNumeric? (body : List Char) : Option ℚ :=
  let ip := body.takeWhile Char.isDigit
  let r1 := body.dropWhile Char.isDigit
  match r1 with
  | [] => if ip = [] then none else some (digitsToNat ip : ℚ)
  | c :: r2 =>
    if c = '.' then
      let fp := r2.takeWhile Char.isDigit
      let r3 := r2.dropWhile Char.isDigit
      if ip = [] ∧ fp = [] then none
      else
        let m : ℚ := (digitsToNat ip : ℚ) + (digitsToNat fp : ℚ) / (10 : ℚ) ^ fp.length
        match r3 with
        | [] => some m
        | e :: r4 =>
          if e = 'e' ∨ e = 'E' then (pyExp? r4).map (fun k => m * (10 : ℚ) ^ k)
          else none
    else if c = 'e' ∨ c = 'E' then
      if ip = [] then none
      else (pyExp? r2).map (fun k => (digitsToNat ip : ℚ) * (10 : ℚ) ^ k)
    else none

/-- A Python float, symbolically: a finite value (the exact rational value
of the literal) or one of the non-finite values. -/
inductive PyFloat where
  | finite (q : ℚ)
  | inf
  | neginf
  | nan
deriving DecidableEq, Repr

/-- `float(s)` of Python: optional surrounding whitespace, optional sign,
then either `inf`/`infinity`/`nan` (case-insensitive) or a numeric
literal. -/
def pyFloat? (s : PyStr) : Option PyFloat :=
  let t := stripChars s
  let (neg, body) :=
    match t with
    | '+' :: r => (false, r)
    | '-' :: r => (true, r)
    | r => (false, r)
  let lower := body.map Char.toLower
  if lower = "inf".data ∨ lower = "infinity".data then
    some (if neg then .neginf else .inf)
  else if lower = "nan".data then some .nan
  else (pyNumeric? body).map (fun q => .finite (if neg then -q else q))

/-- The errors `obj_to_dict` can raise: the two explicit `ValueError`s
with their formatted messages, and the `ValueError`s raised by `float()`
and `int()` on an unparseable token. -/
inductive ObjError where
  | valueError (msg : PyStr)
  | floatParseError (tok : PyStr)
  | intParseError (tok : PyStr)
deriving DecidableEq, Repr

/-- The document built by `obj_to_dict`: the flat vertex-coordinate list
and the zero-based index list. -/
structure ObjDoc where
  vertices : List PyFloat
  indices : List Int
deriving DecidableEq, Repr

/-- Message of `'All vertices must be 3D, at least one vertex is {}D'.format(n)`. -/
def vertexMsg (n : ℕ) : PyStr :=
  "All vertices must be 3D, at least one vertex is ".data ++ (toString n).data ++ "D".data

/-- Message of `'All faces must be triangles, at least one face has {} vertices'.format(n)`. -/
def faceMsg (n : ℕ) : PyStr :=
  "All faces must be triangles, at least one face has ".data ++ (toString n).data ++ " vertices".data

/-- `[float(v) for v in ops]`, failing at the first operand `float()`
rejects (the partial `vertices.extend` Python performs before the
exception is unobservable: the exception aborts the run). -/
def parseFloats : List PyStr → Except ObjError (List PyFloat)
  | [] => .ok []
  | t :: ts =>
    match pyFloat? t with
    | some v => (parseFloats ts).map (fun r => v :: r)
    | none => .error (.floatParseError t)

/-- The truncation `slash = vertex.find('/'); if slash != -1: vertex = vertex[:slash]`:
the part of the token before the first `/`. -/
def faceRef (tok : PyStr) : PyStr := tok.takeWhile (· ≠ '/')

/-- The loop over face operands: truncate at the first `/`, parse as an
integer, subtract 1; fails at the first operand `int()` rejects. -/
def parseIndices : List PyStr → Except ObjError (List Int)
  | [] => .ok []
  | t :: ts =>
    match pyInt? (faceRef t) with
    | some k => (parseIndices ts).map (fun r => (k - 1) :: r)
    | none => .error (.intParseError (faceRef t))

/-- The body of `obj_to_dict`'s loop after tokenization: dispatch on the
first token, check the operand count, extend the accumulators. -/
def processTokens (st : ObjDoc) (data : List PyStr) : Except ObjError ObjDoc :=
  match data with
  | [] => .ok st
  | d0 :: ops =>
    if d0 = "v".data then
      if (d0 :: ops).length ≠ 4 then
        .error (.valueError (vertexMsg ((d0 :: ops).length - 1)))
      else
        (parseFloats ops).map (fun vs => { st with vertices := st.vertices ++ vs })
    else if d0 = "f".data then
      if (d0 :: ops).length ≠ 4 then
        .error (.valueError (faceMsg ((d0 :: ops).length - 1)))
      else
        (parseIndices ops).map (fun ks => { st with indices := st.indices ++ ks })
    else .ok st

/-- One iteration of `obj_to_dict`'s loop on a raw line. -/
def processLine (st : ObjDoc) (line : PyStr) : Except ObjError ObjDoc :=
  processTokens st (tokenize line)

/-- The empty accumulators `vertices = []; indices = []`. -/
def initDoc : ObjDoc := ⟨[], []⟩

/-- `obj_to_dict(obj_file)`: fold the per-line processing over the input
lines, returning the document or the first error raised. -/
def obj_to_dict (lines : List PyStr) : Except ObjError ObjDoc :=
  lines.foldlM processLine initDoc

/-- The observable state of the output file opened by
`argparse.FileType('w')`: whether it has been created/truncated, and the
document serialized into it (`none` = nothing written). -/
structure OutFile where
  created : Bool
  contents : Option ObjDoc
deriving DecidableEq, Repr

/-- `main()` of the source (Lean reserves the name `main`): argument parsing opens (creates or truncates) the output
file before any conversion work; `json.dump(obj_to_dict(args.obj), args.json)`
fully evaluates `obj_to_dict` before any byte is written, so a parse
error propagates with the output file truncated but unwritten. -/
def mainRun (input : List PyStr) : OutFile × Except ObjError Unit :=
  let opened : OutFile := { created := true, contents := none }
  match obj_to_dict input with
  | .ok d => ({ opened with contents := some d }, .ok ())
  | .error e => (opened, .error e)

deriving instance DecidableEq for Except

/-- Is this `PyFloat` a finite value? -/
def PyFloat.isFinite : PyFloat → Bool
  | .finite _ => true
  | _ => false

/-- C1: converting the input with vertex lines for (0,0,0), (1,0,0),
(0,1,0) and one face line referencing vertices 1, 2, 3 (1-based) yields
the document with flat vertex list [0,0,0,1,0,0,0,1,0] and index list
[0,1,2]. -/
theorem obj_to_dict_triangle_example :
    obj_to_dict ["v 0 0 0".data, "v 1 0 0".data, "v 0 1 0".data, "f 1 2 3".data] =
      .ok ⟨[.finite 0, .finite 0, .finite 0, .finite 1, .finite 0, .finite 0,
            .finite 0, .finite 1, .finite 0], [0, 1, 2]⟩ := by
  decide

/-- C3: a line whose first token after comment stripping is `v` with an
operand count other than 3 makes processing fail with the `ValueError`
whose message states the 3D constraint and the actual operand count. -/
theorem vertex_wrong_arity_error (st : ObjDoc) (line : PyStr) (ops : List PyStr)
    (h : tokenize line = "v".data :: ops) (hn : ops.length ≠ 3) :
    processLine st line = .error (.valueError (vertexMsg ops.length)) := by
  have h4 : ¬("v".data :: ops).length = 4 := by
    simp only [List.length_cons]
    omega
  simp [processLine, h, processTokens, h4, hn]

/-- C3 witness: `v 1.0 2.0` tokenizes to `v` with two operands and fails
with the message "All vertices must be 3D, at least one vertex is 2D",
which mentions "2D". -/
theorem vertex_wrong_arity_error_witness :
    processLine initDoc "v 1.0 2.0".data = .error (.valueError (vertexMsg 2)) ∧
      vertexMsg 2 = "All vertices must be 3D, at least one vertex is 2D".data :=
  ⟨vertex_wrong_arity_error initDoc "v 1.0 2.0".data ["1.0".data, "2.0".data]
      (by decide) (by decide),
    by decide⟩

/-- C4: a line whose first token after comment stripping is `f` with an
operand count other than 3 makes processing fail with the `ValueError`
whose message states the triangle constraint and the actual operand
count. -/
theorem face_wrong_arity_error (st : ObjDoc) (line : PyStr) (ops : List PyStr)
    (h : tokenize line = "f".data :: ops) (hn : ops.length ≠ 3) :
    processLine st line = .error (.valueError (faceMsg ops.length)) := by
  have h4 : ¬("f".data :: ops).length = 4 := by
    simp only [List.length_cons]
    omega
  simp [processLine, h, processTokens, h4, hn]

/-- C4 witness: a quad face line `f 1 2 3 4` fails with the message
"All faces must be triangles, at least one face has 4 vertices", which
mentions "4 vertices". -/
theorem face_wrong_arity_error_witness :
    processLine initDoc "f 1 2 3 4".data = .error (.valueError (faceMsg 4)) ∧
      faceMsg 4 = "All faces must be triangles, at least one face has 4 vertices".data :=
  ⟨face_wrong_arity_error initDoc "f 1 2 3 4".data
      ["1".data, "2".data, "3".data, "4".data] (by decide) (by decide),
    by decide⟩

/-- C8: a line that tokenizes to nothing (blank or comment-only), or whose
first token is neither `v` nor `f`, leaves the document unchanged and
raises no error. -/
theorem other_directives_ignored (st : ObjDoc) (line : PyStr)
    (h : tokenize line = [] ∨
      ∃ t ts, tokenize line = t :: ts ∧ t ≠ "v".data ∧ t ≠ "f".data) :
    processLine st line = .ok st := by
  rcases h with h | ⟨t, ts, h, hv, hf⟩
  · simp [processLine, h, processTokens]
  · simp [processLine, h, processTokens, hv, hf]

/-- C8 witness: a texture-coordinate line and a comment-only line both
leave the document unchanged. -/
theorem other_directives_ignored_witness :
    processLine initDoc "vt 0.5 0.5".data = .ok initDoc ∧
      processLine initDoc "   # a comment".data = .ok initDoc :=
  ⟨other_directives_ignored initDoc "vt 0.5 0.5".data
      (Or.inr ⟨"vt".data, ["0.5".data, "0.5".data], by decide, by decide, by decide⟩),
    other_directives_ignored initDoc "   # a comment".data (Or.inl (by decide))⟩

/-- C10: the converter accepts non-finite coordinates: `v nan inf -inf`
succeeds and appends three non-finite values, and `-Infinity` is also a
valid coordinate token. -/
theorem nonfinite_coordinates_accepted :
    obj_to_dict ["v nan inf -inf".data] = .ok ⟨[.nan, .inf, .neginf], []⟩ ∧
      ([PyFloat.nan, PyFloat.inf, PyFloat.neginf].all fun v => !v.isFinite) = true ∧
      pyFloat? "-Infinity".data = some .neginf := by
  decide

theorem parseFloats_ok_length {ts : List PyStr} {vs : List PyFloat}
    (h : parseFloats ts = .ok vs) : vs.length = ts.length := by
  induction ts generalizing vs with
  | nil =>
    simp only [parseFloats, Except.ok.injEq] at h
    subst h
    rfl
  | cons t ts ih =>
    simp only [parseFloats] at h
    cases hp : pyFloat? t with
    | none =>
      rw [hp] at h
      simp at h
    | some v =>
      rw [hp] at h
      cases hr : parseFloats ts with
      | error e =>
        rw [hr] at h
        simp [Except.map] at h
      | ok r =>
        rw [hr] at h
        simp only [Except.map, Except.ok.injEq] at h
        subst h
        simp [ih hr]

theorem parseIndices_ok_length {ts : List PyStr} {ks : List Int}
    (h : parseIndices ts = .ok ks) : ks.length = ts.length := by
  induction ts generalizing ks with
  | nil =>
    simp only [parseIndices, Except.ok.injEq] at h
    subst h
    rfl
  | cons t ts ih =>
    simp only [parseIndices] at h
    cases hp : pyInt? (faceRef t) with
    | none =>
      rw [hp] at h
      simp at h
    | some v =>
      rw [hp] at h
      cases hr : parseIndices ts with
      | error e =>
        rw [hr] at h
        simp [Except.map] at h
      | ok r =>
        rw [hr] at h
        simp only [Except.map, Except.ok.injEq] at h
        subst h
        simp [ih hr]


theorem processTokens_mod3 (st st' : ObjDoc) (data : List PyStr)
    (h : processTokens st data = .ok st') :
    st'.vertices.length % 3 = st.vertices.length % 3 ∧
      st'.indices.length % 3 = st.indices.length % 3 := by
  match data with
  | [] =>
    simp only [processTokens, Except.ok.injEq] at h
    subst h
    exact ⟨rfl, rfl⟩
  | d0 :: ops =>
    by_cases hv : d0 = "v".data
    · subst hv
      by_cases hops : ops.length = 3
      · cases hpf : parseFloats ops with
        | error e =>
          simp [processTokens, List.length_cons, hops, hpf, Except.map] at h
        | ok vs =>
          have hlen : vs.length = 3 := (parseFloats_ok_length hpf).trans hops
          simp [processTokens, List.length_cons, hops, hpf, Except.map] at h
          subst h
          refine ⟨?_, rfl⟩
          simp [hlen, Nat.add_mul_mod_self_right]
      · simp [processTokens, hops] at h
    · by_cases hf : d0 = "f".data
      · subst hf
        by_cases hops : ops.length = 3
        · cases hpi : parseIndices ops with
          | error e =>
            simp [processTokens, List.length_cons, hops, hpi, Except.map] at h
          | ok ks =>
            have hlen : ks.length = 3 := (parseIndices_ok_length hpi).trans hops
            simp [processTokens, List.length_cons, hops, hpi, Except.map] at h
            subst h
            refine ⟨rfl, ?_⟩
            simp [hlen, Nat.add_mul_mod_self_right]
        · simp [processTokens, hv, hops] at h
      · simp only [processTokens, if_neg hv, if_neg hf, Except.ok.injEq] at h
        subst h
        exact ⟨rfl, rfl⟩

theorem foldl_processLine_mod3 (lines : List PyStr) (st st' : ObjDoc)
    (h : lines.foldlM processLine st = .ok st') :
    st'.vertices.length % 3 = st.vertices.length % 3 ∧
      st'.indices.length % 3 = st.indices.length % 3 := by
  induction lines generalizing st with
  | nil =>
    have h' : st = st' := by
      simpa [List.foldlM, pure, Except.pure] using h
    subst h'
    exact ⟨rfl, rfl⟩
  | cons l ls ih =>
    rw [List.foldlM_cons] at h
    cases hp : processLine st l with
    | error e =>
      rw [hp] at h
      exact absurd h (by simp [Bind.bind, Except.bind])
    | ok st1 =>
      rw [hp] at h
      have h' : ls.foldlM processLine st1 = .ok st' := by
        simpa [Bind.bind, Except.bind] using h
      have h1 := processTokens_mod3 st st1 (tokenize l) hp
      have h2 := ih st1 h'
      exact ⟨h2.1.trans h1.1, h2.2.trans h1.2⟩

/-- C5: on every successful conversion the vertex list length and the
index list length are multiples of 3, and this invariant is preserved by
the processing of each single line. -/
theorem doc_lengths_multiple_of_three :
    (∀ lines doc, obj_to_dict lines = .ok doc →
      doc.vertices.length % 3 = 0 ∧ doc.indices.length % 3 = 0) ∧
    (∀ st line st', processLine st line = .ok st' →
      st'.vertices.length % 3 = st.vertices.length % 3 ∧
        st'.indices.length % 3 = st.indices.length % 3) := by
  constructor
  · intro lines doc h
    simpa using foldl_processLine_mod3 lines initDoc doc h
  · intro st line st' h
    exact processTokens_mod3 st st' (tokenize line) h

/-- C5 witness: the single-vertex input yields a document with 3
coordinates and 0 indices, both multiples of 3. -/
theorem doc_lengths_multiple_of_three_witness :
    obj_to_dict ["v 0 0 0".data] = .ok ⟨[.finite 0, .finite 0, .finite 0], []⟩ ∧
      ((3 : ℕ) % 3 = 0 ∧ (0 : ℕ) % 3 = 0) :=
  ⟨by decide,
    doc_lengths_multiple_of_three.1 ["v 0 0 0".data]
      ⟨[.finite 0, .finite 0, .finite 0], []⟩ (by decide)⟩

theorem parseFloats_error_of_bad {ts : List PyStr}
    (h : ∃ t ∈ ts, pyFloat? t = none) :
    ∃ tok, parseFloats ts = .error (.floatParseError tok) := by
  induction ts with
  | nil => simp at h
  | cons t ts ih =>
    cases hp : pyFloat? t with
    | none =>
      exact ⟨t, by simp [parseFloats, hp]⟩
    | some v =>
      rcases h with ⟨u, hu, hnone⟩
      rcases List.mem_cons.mp hu with rfl | hmem
      · rw [hp] at hnone
        cases hnone
      · rcases ih ⟨u, hmem, hnone⟩ with ⟨tok, htok⟩
        exact ⟨tok, by simp [parseFloats, hp, htok, Except.map]⟩

theorem parseIndices_error_of_bad {ts : List PyStr}
    (h : ∃ t ∈ ts, pyInt? (faceRef t) = none) :
    ∃ tok, parseIndices ts = .error (.intParseError tok) := by
  induction ts with
  | nil => simp at h
  | cons t ts ih =>
    cases hp : pyInt? (faceRef t) with
    | none =>
      exact ⟨faceRef t, by simp [parseIndices, hp]⟩
    | some v =>
      rcases h with ⟨u, hu, hnone⟩
      rcases List.mem_cons.mp hu with rfl | hmem
      · rw [hp] at hnone
        cases hnone
      · rcases ih ⟨u, hmem, hnone⟩ with ⟨tok, htok⟩
        exact ⟨tok, by simp [parseIndices, hp, htok, Except.map]⟩

/-- C9: a `v` line with an operand `float()` rejects and an `f` line with
a vertex-reference substring `int()` rejects each raise a numeric-parse
error, and a line error makes the whole conversion return that error,
regardless of how many well-formed lines follow. -/
theorem numeric_parse_error_aborts :
    (∀ (st : ObjDoc) (line : PyStr) (ops : List PyStr),
      tokenize line = "v".data :: ops → ops.length = 3 →
      (∃ t ∈ ops, pyFloat? t = none) →
      ∃ tok, processLine st line = .error (.floatParseError tok)) ∧
    (∀ (st : ObjDoc) (line : PyStr) (ops : List PyStr),
      tokenize line = "f".data :: ops → ops.length = 3 →
      (∃ t ∈ ops, pyInt? (faceRef t) = none) →
      ∃ tok, processLine st line = .error (.intParseError tok)) ∧
    (∀ (pre : List PyStr) (line : PyStr) (post : List PyStr)
        (st : ObjDoc) (e : ObjError),
      pre.foldlM processLine initDoc = .ok st →
      processLine st line = .error e →
      obj_to_dict (pre ++ line :: post) = .error e) := by
  refine ⟨?_, ?_, ?_⟩
  · intro st line ops h hlen hbad
    rcases parseFloats_error_of_bad hbad with ⟨tok, htok⟩
    exact ⟨tok, by simp [processLine, h, processTokens, hlen, htok, Except.map]⟩
  · intro st line ops h hlen hbad
    rcases parseIndices_error_of_bad hbad with ⟨tok, htok⟩
    exact ⟨tok, by simp [processLine, h, processTokens, hlen, htok, Except.map]⟩
  · intro pre line post st e h1 h2
    rw [obj_to_dict, List.foldlM_append, h1]
    show (line :: post).foldlM processLine st = .error e
    rw [List.foldlM_cons, h2]
    rfl

/-- C9 witness: `v 1 2 x` raises a float-parse error, `f 1 a 3` raises an
int-parse error, and a bad line inside a longer input makes the whole
conversion return its error. -/
theorem numeric_parse_error_aborts_witness :
    (∃ tok, processLine initDoc "v 1 2 x".data = .error (.floatParseError tok)) ∧
      (∃ tok, processLine initDoc "f 1 a 3".data = .error (.intParseError tok)) ∧
      obj_to_dict ["v 0 0 0".data, "v 1 2 x".data, "v 9 9 9".data] =
        .error (.floatParseError "x".data) :=
  ⟨numeric_parse_error_aborts.1 initDoc "v 1 2 x".data
      ["1".data, "2".data, "x".data] (by decide) (by decide)
      ⟨"x".data, by decide, by decide⟩,
    numeric_parse_error_aborts.2.1 initDoc "f 1 a 3".data
      ["1".data, "a".data, "3".data] (by decide) (by decide)
      ⟨"a".data, by decide, by decide⟩,
    numeric_parse_error_aborts.2.2 ["v 0 0 0".data] "v 1 2 x".data
      ["v 9 9 9".data] ⟨[.finite 0, .finite 0, .finite 0], []⟩
      (.floatParseError "x".data) (by decide) (by decide)⟩

/-- Every value in the index list is a valid zero-based vertex number:
in range [0, vertexCount - 1] with vertexCount = len(vertices) / 3. -/
def indicesInRange (d : ObjDoc) : Prop :=
  ∀ i ∈ d.indices, 0 ≤ i ∧ i < ((d.vertices.length / 3 : ℕ) : ℤ)

instance (d : ObjDoc) : Decidable (indicesInRange d) := by
  unfold indicesInRange
  infer_instance

/-- C6 counterexample: the input consisting of the single line `f 1 2 3`
converts successfully to a document with no vertices and indices
[0, 1, 2], so its indices are not within [0, len(vertices)/3 - 1]. -/
theorem indices_range_claim_false :
    obj_to_dict ["f 1 2 3".data] = .ok ⟨[], [0, 1, 2]⟩ ∧
      ¬ indicesInRange ⟨[], [0, 1, 2]⟩ := by
  constructor
  · decide
  · decide

/-- C6 amended: the converter does not enforce the index-range invariant:
there is an input it accepts whose resulting index list contains values
outside [0, len(vertices)/3 - 1]. -/
theorem indices_range_not_enforced :
    ∃ lines doc, obj_to_dict lines = .ok doc ∧ ¬ indicesInRange doc :=
  ⟨["f 1 2 3".data], ⟨[], [0, 1, 2]⟩, by decide, by decide⟩

/-- C7 counterexample: on the failing input `v 1 2` the conversion raises
an error, yet the output file has already been created/truncated by
argument parsing, contradicting "the output file is not created or
modified". -/
theorem parse_failure_output_created :
    (mainRun ["v 1 2".data]).2 = .error (.valueError (vertexMsg 2)) ∧
      (mainRun ["v 1 2".data]).1.created = true := by
  constructor
  · decide
  · decide

/-- C7 amended: if the conversion fails during parsing, no document is
written to the output resource (though the file has been created or
truncated by argument handling); a run that succeeds writes exactly the
one complete converted document. -/
theorem no_bytes_written_on_parse_failure :
    (∀ (input : List PyStr) (e : ObjError), (mainRun input).2 = .error e →
      (mainRun input).1.contents = none ∧ (mainRun input).1.created = true) ∧
    (∀ input : List PyStr, (mainRun input).2 = .ok () →
      ∃ d, obj_to_dict input = .ok d ∧ (mainRun input).1.contents = some d) := by
  constructor
  · intro input e h
    unfold mainRun at h ⊢
    cases hc : obj_to_dict input <;> simp [hc] at h ⊢
  · intro input h
    unfold mainRun at h ⊢
    cases hc : obj_to_dict input <;> simp [hc] at h ⊢

/-- C7 amended witness: on the failing input `v 1 2` nothing has been
written to the output file, and the file was created/truncated. -/
theorem no_bytes_written_on_parse_failure_witness :
    (mainRun ["v 1 2".data]).1.contents = none ∧
      (mainRun ["v 1 2".data]).1.created = true :=
  no_bytes_written_on_parse_failure.1 ["v 1 2".data]
    (.valueError (vertexMsg 2)) (by decide)

theorem takeWhile_append_stop {α : Type} (p : α → Bool) (a : List α) (b : α)
    (r : List α) (ha : ∀ c ∈ a, p c = true) (hb : p b = false) :
    (a ++ b :: r).takeWhile p = a := by
  induction a with
  | nil => simp [List.takeWhile_cons, hb]
  | cons x xs ih =>
    have hx : p x = true := ha x (List.mem_cons_self x xs)
    simp [List.takeWhile_cons, hx,
      ih (fun c hc => ha c (List.mem_cons_of_mem x hc))]

theorem splitWsAux_nonws (t : List Char) (r acc : List Char)
    (ht : ∀ c ∈ t, c.isWhitespace = false) :
    splitWsAux (t ++ r) acc = splitWsAux r (t.reverse ++ acc) := by
  induction t generalizing acc with
  | nil => simp
  | cons c cs ih =>
    have hc : c.isWhitespace = false := ht c (List.mem_cons_self c cs)
    have hrec := ih (c :: acc) (fun d hd => ht d (List.mem_cons_of_mem c hd))
    simp only [List.cons_append, splitWsAux, hc, Bool.false_eq_true, if_false]
    simpa using hrec

theorem splitWsAux_space (r acc : List Char) (hacc : acc ≠ []) :
    splitWsAux (' ' :: r) acc = acc.reverse :: splitWsAux r [] := by
  have hw : (' ' : Char).isWhitespace = true := by decide
  simp [splitWsAux, hw, hacc]

theorem stripChars_of_ends (b : Char) (m : List Char) (a : Char)
    (hb : b.isWhitespace = false) (ha : a.isWhitespace = false) :
    stripChars (b :: (m ++ [a])) = b :: (m ++ [a]) := by
  unfold stripChars lstrip
  rw [List.dropWhile_cons_of_neg (by simp [hb])]
  rw [show (b :: (m ++ [a])).reverse = a :: (m.reverse ++ [b]) from by simp]
  rw [List.dropWhile_cons_of_neg (by simp [ha])]
  simp

/-- A face line: the keyword `f` and three operand tokens joined by
single spaces. -/
def faceLine (t1 t2 t3 : PyStr) : PyStr :=
  'f' :: ' ' :: (t1 ++ ' ' :: (t2 ++ ' ' :: t3))

theorem tokenize_faceLine (t1 t2 t3 : PyStr)
    (h1 : t1 ≠ []) (h2 : t2 ≠ []) (h3 : t3 ≠ [])
    (g1 : ∀ c ∈ t1, c.isWhitespace = false ∧ c ≠ '#')
    (g2 : ∀ c ∈ t2, c.isWhitespace = false ∧ c ≠ '#')
    (g3 : ∀ c ∈ t3, c.isWhitespace = false ∧ c ≠ '#') :
    tokenize (faceLine t1 t2 t3) = ["f".data, t1, t2, t3] := by
  rcases List.eq_nil_or_concat t3 with rfl | ⟨t3f, a, hcat⟩
  · exact absurd rfl h3
  rw [List.concat_eq_append] at hcat
  subst hcat
  have ha : a.isWhitespace = false := (g3 a (by simp)).1
  have hshape : faceLine t1 t2 (t3f ++ [a]) =
      'f' :: ((' ' :: (t1 ++ ' ' :: (t2 ++ ' ' :: t3f))) ++ [a]) := by
    simp [faceLine]
  have hstrip : stripChars (faceLine t1 t2 (t3f ++ [a])) =
      faceLine t1 t2 (t3f ++ [a]) := by
    rw [hshape]
    exact stripChars_of_ends 'f' (' ' :: (t1 ++ ' ' :: (t2 ++ ' ' :: t3f))) a
      (by decide) ha
  have hhash : (faceLine t1 t2 (t3f ++ [a])).takeWhile (· ≠ '#') =
      faceLine t1 t2 (t3f ++ [a]) := by
    refine List.takeWhile_eq_self_iff.mpr ?_
    intro c hc
    have hc' : c = 'f' ∨ c = ' ' ∨ c ∈ t1 ∨ c ∈ t2 ∨ c ∈ t3f ∨ c = a := by
      simp only [faceLine, List.mem_cons, List.mem_append,
        List.mem_singleton] at hc
      tauto
    rcases hc' with rfl | rfl | hc' | hc' | hc' | rfl
    · decide
    · decide
    · simp [(g1 c hc').2]
    · simp [(g2 c hc').2]
    · simp [(g3 c (List.mem_append_left _ hc')).2]
    · simp [(g3 c (by simp)).2]
  rw [tokenize, hstrip, hhash]
  rw [show pySplitWs (faceLine t1 t2 (t3f ++ [a])) =
      splitWsAux ('f' :: ' ' :: (t1 ++ ' ' :: (t2 ++ ' ' :: (t3f ++ [a])))) []
    from rfl]
  rw [show splitWsAux ('f' :: ' ' :: (t1 ++ ' ' :: (t2 ++ ' ' :: (t3f ++ [a])))) [] =
      splitWsAux (' ' :: (t1 ++ ' ' :: (t2 ++ ' ' :: (t3f ++ [a])))) ['f']
    from by simp [splitWsAux]]
  rw [splitWsAux_space _ ['f'] (by simp)]
  rw [splitWsAux_nonws t1 _ [] (fun c hc => (g1 c hc).1)]
  rw [splitWsAux_space _ _ (by simpa using h1)]
  rw [splitWsAux_nonws t2 _ [] (fun c hc => (g2 c hc).1)]
  rw [splitWsAux_space _ _ (by simpa using h2)]
  rw [show splitWsAux (t3f ++ [a]) [] = splitWsAux ((t3f ++ [a]) ++ []) []
    from by simp]
  rw [splitWsAux_nonws (t3f ++ [a]) [] [] (fun c hc => (g3 c hc).1)]
  simp [splitWsAux]

theorem processTokens_face (st : ObjDoc) (a b c : PyStr) :
    processTokens st ["f".data, a, b, c] =
      (parseIndices [a, b, c]).map
        (fun ks => { st with indices := st.indices ++ ks }) := rfl

/-- C2: in a face operand everything from the first `/` onward is
discarded and the rest parses as a 1-based reference converted by
subtracting 1, so a face line whose operands carry `/`-delimited extra
fields processes exactly like the face line of the bare references. -/
theorem face_slash_fields_ignored (t1 t2 t3 r1 r2 r3 : PyStr) (st : ObjDoc)
    (h1 : t1 ≠ []) (h2 : t2 ≠ []) (h3 : t3 ≠ [])
    (g1 : ∀ c ∈ t1, c.isWhitespace = false ∧ c ≠ '#' ∧ c ≠ '/')
    (g2 : ∀ c ∈ t2, c.isWhitespace = false ∧ c ≠ '#' ∧ c ≠ '/')
    (g3 : ∀ c ∈ t3, c.isWhitespace = false ∧ c ≠ '#' ∧ c ≠ '/')
    (e1 : ∀ c ∈ r1, c.isWhitespace = false ∧ c ≠ '#')
    (e2 : ∀ c ∈ r2, c.isWhitespace = false ∧ c ≠ '#')
    (e3 : ∀ c ∈ r3, c.isWhitespace = false ∧ c ≠ '#') :
    processLine st
        (faceLine (t1 ++ '/' :: r1) (t2 ++ '/' :: r2) (t3 ++ '/' :: r3)) =
      processLine st (faceLine t1 t2 t3) ∧
    (∀ k1 k2 k3 : ℤ, pyInt? t1 = some k1 → pyInt? t2 = some k2 →
      pyInt? t3 = some k3 →
      processLine st (faceLine t1 t2 t3) =
        .ok { st with indices := st.indices ++ [k1 - 1, k2 - 1, k3 - 1] }) := by
  have hsl : ∀ (t r : PyStr),
      (∀ c ∈ t, c.isWhitespace = false ∧ c ≠ '#' ∧ c ≠ '/') →
      (∀ c ∈ r, c.isWhitespace = false ∧ c ≠ '#') →
      ∀ c ∈ t ++ '/' :: r, c.isWhitespace = false ∧ c ≠ '#' := by
    intro t r gt gr c hc
    rcases List.mem_append.mp hc with hc | hc
    · exact ⟨(gt c hc).1, (gt c hc).2.1⟩
    · rcases List.mem_cons.mp hc with rfl | hc
      · exact ⟨by decide, by decide⟩
      · exact gr c hc
  have tok_plain : tokenize (faceLine t1 t2 t3) = ["f".data, t1, t2, t3] :=
    tokenize_faceLine t1 t2 t3 h1 h2 h3
      (fun c hc => ⟨(g1 c hc).1, (g1 c hc).2.1⟩)
      (fun c hc => ⟨(g2 c hc).1, (g2 c hc).2.1⟩)
      (fun c hc => ⟨(g3 c hc).1, (g3 c hc).2.1⟩)
  have tok_slash : tokenize
      (faceLine (t1 ++ '/' :: r1) (t2 ++ '/' :: r2) (t3 ++ '/' :: r3)) =
      ["f".data, t1 ++ '/' :: r1, t2 ++ '/' :: r2, t3 ++ '/' :: r3] :=
    tokenize_faceLine _ _ _ (by simp) (by simp) (by simp)
      (hsl t1 r1 g1 e1) (hsl t2 r2 g2 e2) (hsl t3 r3 g3 e3)
  have fr1 : faceRef (t1 ++ '/' :: r1) = t1 :=
    takeWhile_append_stop _ t1 '/' r1
      (fun c hc => by simp [(g1 c hc).2.2]) (by decide)
  have fr2 : faceRef (t2 ++ '/' :: r2) = t2 :=
    takeWhile_append_stop _ t2 '/' r2
      (fun c hc => by simp [(g2 c hc).2.2]) (by decide)
  have fr3 : faceRef (t3 ++ '/' :: r3) = t3 :=
    takeWhile_append_stop _ t3 '/' r3
      (fun c hc => by simp [(g3 c hc).2.2]) (by decide)
  have fq1 : faceRef t1 = t1 :=
    List.takeWhile_eq_self_iff.mpr (fun c hc => by simp [(g1 c hc).2.2])
  have fq2 : faceRef t2 = t2 :=
    List.takeWhile_eq_self_iff.mpr (fun c hc => by simp [(g2 c hc).2.2])
  have fq3 : faceRef t3 = t3 :=
    List.takeWhile_eq_self_iff.mpr (fun c hc => by simp [(g3 c hc).2.2])
  constructor
  · rw [processLine, processLine, tok_plain, tok_slash,
      processTokens_face, processTokens_face]
    have hpi : parseIndices [t1 ++ '/' :: r1, t2 ++ '/' :: r2, t3 ++ '/' :: r3] =
        parseIndices [t1, t2, t3] := by
      simp only [parseIndices, fr1, fr2, fr3, fq1, fq2, fq3]
    rw [hpi]
  · intro k1 k2 k3 hk1 hk2 hk3
    rw [processLine, tok_plain, processTokens_face]
    simp [parseIndices, fq1, fq2, fq3, hk1, hk2, hk3, Except.map]

/-- C2 witness: `f 1/5/9 2/6/10 3/7/11` processes exactly like `f 1 2 3`
and yields the indices [0, 1, 2]. -/
theorem face_slash_fields_ignored_witness :
    processLine initDoc "f 1/5/9 2/6/10 3/7/11".data =
        processLine initDoc "f 1 2 3".data ∧
      processLine initDoc "f 1 2 3".data = .ok ⟨[], [0, 1, 2]⟩ := by
  constructor
  · exact (face_slash_fields_ignored ['1'] ['2'] ['3'] "5/9".data "6/10".data
      "7/11".data initDoc (by decide) (by decide) (by decide) (by decide)
      (by decide) (by decide) (by decide) (by decide) (by decide)).1
  · decide
